import Mathlib

/-!
Verification of the wego-game cognitive mini-game suite.

Shallow embedding of the TypeScript sources:
  * `src/src/src/utils/storage.ts` — best scores, training-record log, score
    normalization (`saveBestScore`, `saveRecord`, `normalizeScore`).
  * `src/src/src/games/SchulteGrid.tsx` — grid-search scoring (`calculateScore`).
  * `src/src/games/MemoryMatch.tsx` — memory-match scoring, the reaction test
    (trick trials, `calculateTrialScore`, final score), the pattern-reasoning
    handler (`handleOptionClick`).
  * `src/src/src/games/PathMemory.tsx` — spatial-recall state machine
    (`startRound`, `handleCellClick`).
  * `src/src/src/games/WordSort.tsx` — categorization scoring and the guarded
    completion effect; the Stroop interference scoring step.
  * `src/src/src/games/DigitSpan.tsx` — digit-span `handleConfirm`.
  * `src/unnamed/part_000` — arithmetic challenge `handleOptionClick`.
  * `src/unnamed/part_004` — result-page aggregate average.

JavaScript `Math.round` is embedded as `jsRound` (floor of x + 1/2, which is
exactly the JS half-up-towards-positive-infinity behaviour on rationals), and
JS numbers carrying integer values are embedded as `Int`/`Nat`.
-/

/-- JS `Math.round`: rounds half-integers toward positive infinity. -/
def jsRound (q : ℚ) : ℤ := ⌊q + 1/2⌋



/-- Identifier of one of the nine games, as listed by the `Scores` defaults in
`storage.ts` and the `GAMES` table. -/
inductive GameId where
  | memory | schulte | stroop | wordSort | pathMemory
  | reaction | digitSpan | arithmetic | patternReason
deriving DecidableEq, Repr

/-- Difficulty levels, from `types.ts` (`easy`, `normal`, `hard`). -/
inductive Difficulty where
  | easy | normal | hard
deriving DecidableEq, Repr

/-- Best-scores map: each game id maps to the best score or `none`
(`Scores` in `types.ts`, all-`null` defaults in `loadBestScores`). -/
def Scores : Type := GameId → Option ℤ

/-- Empty best-scores map (the `loadBestScores` defaults: every game `null`). -/
def emptyScores : Scores := fun _ => none

/-- Embedding of `saveBestScore` (storage.ts lines 24-30): overwrite the stored
entry only when none exists or the new score is strictly greater. -/
def saveBestScore (best : Scores) (gameId : GameId) (score : ℤ) : Scores :=
  match best gameId with
  | none => fun g => if g = gameId then some score else best g
  | some b =>
    if b < score then (fun g => if g = gameId then some score else best g)
    else best

/-- One persisted training record (storage.ts `TrainingRecord`). -/
structure TrainingRecord where
  gameId : GameId
  difficulty : Difficulty
  score : ℤ
  timestamp : ℕ
deriving DecidableEq, Repr

/-- Embedding of `saveRecord` (storage.ts lines 42-55): push the new record,
then `splice(0, length - 200)` whenever the log exceeds 200 entries. -/
def saveRecord (records : List TrainingRecord) (r : TrainingRecord) :
    List TrainingRecord :=
  let rs := records ++ [r]
  if 200 < rs.length then rs.drop (rs.length - 200) else rs

/-- Suffix of the last 200 entries; `saveRecord` is exactly push-then-trim. -/
def trimLog (xs : List TrainingRecord) : List TrainingRecord :=
  xs.drop (xs.length - 200)





/-- Embedding of `normalizeScore` (`scoring.ts`, second section of the storage
source file, lines 74-77): `Math.min(100, Math.round((rawScore / max) * 100))`.
The per-(game, difficulty) maximum from the missing `MAX_SCORES` table is
passed in as `max`. -/
def normalizeScore (rawScore max : ℚ) : ℤ :=
  min 100 (jsRound (rawScore / max * 100))

/-- Modelled from the spec: `normalize(rawScore, maxScoreForGameAndDifficulty)
-> min(100, round(raw/max * 100))` (spec section 4.4). -/
def normalizeScoreSpec (rawScore max : ℚ) : ℤ :=
  min 100 (jsRound (rawScore / max * 100))

namespace SchulteGrid

/-- Grid-search settings (SchulteGrid.tsx `SETTINGS`): grid size and target
time per difficulty. -/
def SETTINGS (d : Difficulty) : ℕ × ℚ :=
  match d with
  | .easy => (3, 20)
  | .normal => (4, 30)
  | .hard => (5, 50)

/-- Embedding of `calculateScore` (SchulteGrid.tsx lines 30-46): base 500 plus
a time-tier bonus, minus 20 per error, clamped at zero. -/
def calculateScore (elapsed : ℚ) (errors : ℕ) (targetTime : ℚ) : ℤ :=
  let base : ℤ := 500
  let timeBonus : ℤ :=
    if elapsed ≤ targetTime then 300
    else if elapsed ≤ targetTime * 1.5 then 200
    else if elapsed ≤ targetTime * 2 then 100
    else 0
  let errorPenalty : ℤ := errors * 20
  max 0 (base + timeBonus - errorPenalty)

/-- Modelled from the spec: "base 500 + time-tier bonus {≤target:300,
≤1.5×target:200, ≤2×target:100, else:0} − errors*20, clamped ≥0"
(spec section 4.2). -/
def scoreSpec (elapsed : ℚ) (errors : ℕ) (targetTime : ℚ) : ℤ :=
  max 0 (500 +
    (if elapsed ≤ targetTime then 300
     else if elapsed ≤ 1.5 * targetTime then 200
     else if elapsed ≤ 2 * targetTime then 100
     else 0) - 20 * errors)

end SchulteGrid

namespace MemoryMatch

/-- Embedding of `calculateScore` (MemoryMatch.tsx lines 100-106):
`matches*100 - errors*10`, plus a time bonus of `max(0, (limit-used)*2)` when a
time limit is configured, clamped at zero. -/
def calculateScore (timeLimit matchCount errorCount timeUsed : ℤ) : ℤ :=
  let score := matchCount * 100 - errorCount * 10
  let score := if 0 < timeLimit then score + max 0 ((timeLimit - timeUsed) * 2)
               else score
  max 0 score

end MemoryMatch

namespace ReactionTest

/-- Phases of the reaction test (MemoryMatch.tsx source file, line 217). -/
inductive Phase where
  | waiting | ready | signal | result | tooEarly | done
deriving DecidableEq, Repr

/-- Session state of the reaction test: phase, trial counter, recorded
reaction times, and the refs `signalTimeRef`/`isTrickTrialRef`. Times are in
milliseconds. -/
structure State where
  phase : Phase
  currentTrial : ℕ
  reactionTimes : List ℕ
  signalTime : ℕ
  isTrickTrial : Bool
deriving DecidableEq, Repr

/-- Embedding of `calculateTrialScore` (lines 223-226): zero below the 150ms
validity floor, otherwise `max(0, 800 - reactionTime)`. -/
def calculateTrialScore (reactionTime : ℕ) : ℤ :=
  if reactionTime < 150 then 0 else max 0 (800 - (reactionTime : ℤ))

/-- Final score handed to `onComplete` (lines 332-339): the rounded mean of
the per-trial scores over all recorded trials, capped at 800. -/
def finalScore (reactionTimes : List ℕ) : ℤ :=
  min 800 (jsRound (((reactionTimes.map calculateTrialScore).sum : ℚ) /
    (reactionTimes.length : ℚ)))

/-- Trick-trial signal onset (lines 267-272): the signal is shown and
`isTrickTrialRef` is set; `now` is the value `performance.now()` stored into
`signalTimeRef`. -/
def showTrickSignal (now : ℕ) (s : State) : State :=
  { s with isTrickTrial := true, phase := .signal, signalTime := now }

/-- Trick-trial withdrawal (lines 273-277, fired 150ms after onset): the
signal is hidden and the phase reverts to `ready`. -/
def trickHide (s : State) : State :=
  { s with isTrickTrial := false, phase := .ready }

/-- Genuine signal onset (lines 280-283 and 285-288). -/
def showSignal (now : ℕ) (s : State) : State :=
  { s with phase := .signal, signalTime := now }

/-- Embedding of `handleCircleClick` (lines 301-347) at time `now`: clicks in
`waiting`/`done`/`result`/`tooEarly` are ignored; a click in `ready` is a
false start (no reaction time recorded); a click in `signal` records the
reaction time and advances the trial. -/
def handleCircleClick (now : ℕ) (s : State) : State :=
  match s.phase with
  | .waiting => s
  | .done => s
  | .result => s
  | .tooEarly => s
  | .ready => { s with phase := .tooEarly }
  | .signal =>
    { s with phase := .result,
             reactionTimes := s.reactionTimes ++ [now - s.signalTime],
             currentTrial := s.currentTrial + 1 }

end ReactionTest

namespace PathMemory

/-- Phases of the spatial-recall game (PathMemory.tsx line 20). -/
inductive Phase where
  | ready | showing | input | success | error | gameover
deriving DecidableEq, Repr

/-- Session state of the spatial-recall game: phase, current target sequence,
the player's input so far, current round length, accumulated score and the
per-round `retryUsed` flag. -/
structure State where
  phase : Phase
  sequence : List ℕ
  playerInput : List ℕ
  currentLength : ℕ
  score : ℕ
  retryUsed : Bool
deriving DecidableEq, Repr

/-- Deferred effect scheduled by `handleCellClick` via `addTimeout`: invoke
the completion callback, start the next round, replay the current sequence
for the granted retry, or nothing. -/
inductive Cmd where
  | completeGame (score : ℕ)
  | nextRound (len : ℕ)
  | retryShow
  | nothing
deriving DecidableEq, Repr

/-- Embedding of `startRound` (PathMemory.tsx lines 104-117): a freshly
generated sequence `seq` (the random `generateSequence(length, totalCells)`
output, supplied here as an oracle) is installed, the player input is cleared,
and `retryUsed` is reset to `false`. -/
def startRound (seq : List ℕ) (s : State) : State :=
  { s with sequence := seq, playerInput := [], retryUsed := false,
           phase := .ready }

/-- Embedding of `startShowingSequence` (lines 73-102, reveal start): phase
moves to `showing` and the player input is cleared. -/
def startShowingSequence (s : State) : State :=
  { s with phase := .showing, playerInput := [] }

/-- Reveal completion (lines 97-101): after the stepped reveal schedule the
phase moves to `input`. -/
def finishShowing (s : State) : State :=
  { s with phase := .input }

/-- Embedding of `handleCellClick` (lines 125-199). Returns the immediately
updated state together with the deferred effect scheduled by the handler.
Clicks outside the `input` phase are ignored. A full-length correct input
earns `sequence.length * 50` and either completes the game (past `maxLength`)
or starts the next round; a mismatch (full-length or detected mid-sequence)
grants a retry when `retryUsed` is still false and otherwise ends the session
with the pre-failure score. -/
def handleCellClick (maxLength : ℕ) (cellIndex : ℕ) (s : State) :
    State × Cmd :=
  if s.phase ≠ .input then (s, .nothing) else
  let newInput := s.playerInput ++ [cellIndex]
  let stepIndex := newInput.length - 1
  let isCorrectSoFar := newInput.get? stepIndex = s.sequence.get? stepIndex
  if newInput.length = s.sequence.length then
    if newInput = s.sequence then
      let earned := s.sequence.length * 50
      let newScore := s.score + earned
      let nextLength := s.currentLength + 1
      if maxLength < nextLength then
        ({ s with playerInput := newInput, score := newScore,
                  phase := .success }, .completeGame newScore)
      else
        ({ s with playerInput := newInput, score := newScore,
                  phase := .success, currentLength := nextLength },
         .nextRound nextLength)
    else
      if s.retryUsed then
        ({ s with playerInput := newInput, phase := .gameover },
         .completeGame s.score)
      else
        ({ s with playerInput := newInput, retryUsed := true,
                  phase := .error }, .retryShow)
  else if ¬ isCorrectSoFar then
    if s.retryUsed then
      ({ s with playerInput := newInput, phase := .gameover },
       .completeGame s.score)
    else
      ({ s with playerInput := newInput, retryUsed := true,
                phase := .error }, .retryShow)
  else
    ({ s with playerInput := newInput }, .nothing)

/-- State at mount for easy difficulty (`SETTINGS.easy`: startLength 2,
maxLength 6), before the first `startRound`. -/
def initState (startLength : ℕ) : State :=
  { phase := .ready, sequence := [], playerInput := [],
    currentLength := startLength, score := 0, retryUsed := false }

/-- Whether a click on `cellIndex` in state `s` is a wrong attempt: either the
completed input mismatches the sequence, or the mismatch is detected
mid-sequence. -/
def wrongAttempt (cellIndex : ℕ) (s : State) : Prop :=
  let newInput := s.playerInput ++ [cellIndex]
  (newInput.length = s.sequence.length ∧ newInput ≠ s.sequence) ∨
  (newInput.length ≠ s.sequence.length ∧
    ¬ newInput.get? (newInput.length - 1) =
      s.sequence.get? (newInput.length - 1))

instance (cellIndex : ℕ) (s : State) : Decidable (wrongAttempt cellIndex s) := by
  unfold wrongAttempt
  infer_instance

/-- Concrete easy-difficulty session (startLength 2, maxLength 6) exercising
the retry policy: round 1 with sequence [0, 1], in the input phase. -/
def demoRound1Input : State :=
  finishShowing (startShowingSequence (startRound [0, 1] (initState 2)))

/-- Round 1, first click on cell 0 (correct so far). -/
def demoClick1 : State × Cmd := handleCellClick 6 0 demoRound1Input

/-- Round 1, second click on cell 2: a wrong full-length attempt, consuming
the retry. -/
def demoClick2 : State × Cmd := handleCellClick 6 2 demoClick1.1

/-- The retry replay of round 1, back in the input phase. -/
def demoRetryInput : State := finishShowing (startShowingSequence demoClick2.1)

/-- Round 1 solved on the retry (clicks on cells 0 then 1). -/
def demoClick4 : State × Cmd :=
  handleCellClick 6 1 (handleCellClick 6 0 demoRetryInput).1

/-- Round 2 (sequence [0, 1, 2]) in the input phase, reached via
`startRound`. -/
def demoRound2Input : State :=
  finishShowing (startShowingSequence (startRound [0, 1, 2] demoClick4.1))

/-- Round 2, wrong click on cell 5, after the session already consumed a
retry in round 1. -/
def demoClick5 : State × Cmd := handleCellClick 6 5 demoRound2Input

end PathMemory

namespace WordSort

/-- Embedding of one scoring update in `handleCategoryClick` (WordSort.tsx
lines 129-169): a correct answer earns 10 points, plus 15 more when the new
streak is a positive multiple of 3; a wrong answer subtracts 5 (no per-step
clamp) and resets the streak. Returns (new score, new streak). -/
def answerStep (isCorrect : Bool) (score : ℤ) (streak : ℕ) : ℤ × ℕ :=
  if isCorrect then
    let newStreak := streak + 1
    let points : ℤ := if 3 ≤ newStreak ∧ newStreak % 3 = 0 then 10 + 15 else 10
    (score + points, newStreak)
  else
    (score - 5, 0)

/-- Session score after a list of answers, starting from 0 with streak 0. -/
def runSession (answers : List Bool) : ℤ × ℕ :=
  answers.foldl (fun acc a => answerStep a acc.1 acc.2) (0, 0)

/-- Embedding of the completion effect (WordSort.tsx lines 112-117): when the
game is over and `completedRef` is not yet set, mark it and emit
`Math.max(0, score)`; otherwise do nothing. Returns the new `completedRef`
value and the emitted score, if any. -/
def completionEffect (gameOver completed : Bool) (score : ℤ) :
    Bool × Option ℤ :=
  if gameOver ∧ completed = false then (true, some (max 0 score))
  else (completed, none)

/-- Running the completion effect `n` times (re-renders while `gameOver`
holds), collecting every emission to `onComplete`. -/
def runCompletion (completed gameOver : Bool) (score : ℤ) : ℕ → Bool × List ℤ
  | 0 => (completed, [])
  | n + 1 =>
    let step := completionEffect gameOver completed score
    let rest := runCompletion step.1 gameOver score n
    (rest.1, step.2.toList ++ rest.2)

end WordSort

namespace StroopTest

/-- Embedding of one scoring update in `handleOptionClick` (StroopTest part of
the WordSort source file, lines 355-408): a correct answer earns 10 points,
plus 5 when answered within 2000ms, plus a streak milestone bonus (+50 at
streak 10, +20 at streak 5); a wrong answer clamps `max(0, score - 5)` and
resets the streak. Returns (new score, new streak). -/
def answerStep (isCorrect fast : Bool) (score : ℤ) (streak : ℕ) : ℤ × ℕ :=
  if isCorrect then
    let newStreak := streak + 1
    let points : ℤ := 10 + (if fast then 5 else 0) +
      (if newStreak = 10 then 50 else if newStreak = 5 then 20 else 0)
    (score + points, newStreak)
  else
    (max 0 (score - 5), 0)

/-- Session score after a list of (isCorrect, fast) answers, from (0, 0). -/
def runSession (answers : List (Bool × Bool)) : ℤ × ℕ :=
  answers.foldl (fun acc a => answerStep a.1 a.2 acc.1 acc.2) (0, 0)

end StroopTest

namespace DigitSpan

/-- Phases of the digit-span game (DigitSpan.tsx line 23). -/
inductive Phase where
  | showing | input | feedback | done
deriving DecidableEq, Repr

/-- Session state of the digit-span game, including the `gameOverRef` flag. -/
structure State where
  phase : Phase
  currentSequence : List ℕ
  playerInput : List ℕ
  sequenceLength : ℕ
  score : ℕ
  failCount : ℕ
  longestCorrect : ℕ
  firstTryAtLength : Bool
  gameOver : Bool
deriving DecidableEq, Repr

/-- Embedding of `handleNumberPress` (DigitSpan.tsx lines 91-94). -/
def handleNumberPress (num : ℕ) (s : State) : State :=
  if s.phase ≠ .input ∨ s.gameOver then s
  else { s with playerInput := s.playerInput ++ [num] }

/-- Embedding of `handleConfirm` (DigitSpan.tsx lines 101-161) together with
the feedback timeout it schedules. `nextSeq` is the oracle for the random
sequence generated for the following round. Emits the final score when the
session ends (max length exceeded, or the fail threshold of 3 for easy / 2
otherwise is reached). -/
def handleConfirm (difficulty : Difficulty) (maxLength : ℕ)
    (nextSeq : List ℕ) (s : State) : State × Option ℕ :=
  if s.phase ≠ .input ∨ s.gameOver then (s, none) else
  let reversed := s.currentSequence.reverse
  let isCorrect := s.playerInput = reversed
  if isCorrect then
    let roundScore := s.sequenceLength * 20 +
      (if s.firstTryAtLength then 10 else 0)
    let newScore := s.score + roundScore
    let newLongest := max s.longestCorrect s.sequenceLength
    let nextLength := s.sequenceLength + 1
    if maxLength < nextLength then
      ({ s with score := newScore, longestCorrect := newLongest,
                failCount := 0, phase := .done, gameOver := true },
       some newScore)
    else
      ({ s with score := newScore, longestCorrect := newLongest,
                failCount := 0, sequenceLength := nextLength,
                currentSequence := nextSeq, playerInput := [],
                firstTryAtLength := true, phase := .showing }, none)
  else
    let newFailCount := s.failCount + 1
    let maxFails := if difficulty = .easy then 3 else 2
    if maxFails ≤ newFailCount then
      ({ s with phase := .done, gameOver := true }, some s.score)
    else
      ({ s with failCount := newFailCount, currentSequence := nextSeq,
                playerInput := [], firstTryAtLength := false,
                phase := .showing }, none)

end DigitSpan

namespace ArithmeticChallenge

/-- Difficulty tunables of the arithmetic challenge
(`DIFFICULTY_SETTINGS` in the arithmetic source, lines 14-33). -/
structure Settings where
  pointsPerCorrect : ℕ
  comboBonus : ℕ
  maxComboExtra : ℕ
deriving DecidableEq, Repr

/-- Session state of the arithmetic challenge, with the refs
`gameActiveRef`/`isProcessingRef`/`scoreRef`/`problemIndexRef` and the answer
of the current problem. -/
structure State where
  score : ℕ
  streak : ℕ
  totalCorrect : ℕ
  totalAttempted : ℕ
  feedback : Option Bool
  selectedOption : Option ℤ
  answer : ℤ
  problemIndex : ℕ
  gameActive : Bool
  isProcessing : Bool
  scoreRef : ℕ
deriving DecidableEq, Repr

/-- Embedding of `handleOptionClick` (arithmetic source, lines 211-253):
re-entrant input is dropped while `isProcessingRef` is set or the game is no
longer active; otherwise the guard is set, the attempt is recorded, and a
correct answer earns `pointsPerCorrect + min((newStreak-1)*comboBonus,
maxComboExtra)` while a wrong answer resets the streak. -/
def handleOptionClick (st : Settings) (value : ℤ) (s : State) : State :=
  if s.isProcessing then s
  else if s.gameActive = false then s
  else
    let s1 := { s with isProcessing := true, selectedOption := some value,
                       totalAttempted := s.totalAttempted + 1 }
    if value = s.answer then
      let newStreak := s1.streak + 1
      let comboExtra := min ((newStreak - 1) * st.comboBonus) st.maxComboExtra
      let points := st.pointsPerCorrect + comboExtra
      { s1 with streak := newStreak, totalCorrect := s1.totalCorrect + 1,
                score := s1.score + points, scoreRef := s1.score + points,
                feedback := some true }
    else
      { s1 with streak := 0, feedback := some false }

/-- Embedding of `nextProblem` (lines 202-209), fired by the feedback timer
when the game is still active; `newAnswer` is the oracle for the generated
problem. -/
def nextProblem (newAnswer : ℤ) (s : State) : State :=
  { s with problemIndex := s.problemIndex + 1, answer := newAnswer,
           feedback := none, selectedOption := none, isProcessing := false }

end ArithmeticChallenge

namespace PatternReason

/-- Session state of the pattern-reasoning game, with the refs
`isProcessing`/`scoreRef`. -/
structure State where
  currentQuestion : ℕ
  score : ℕ
  feedback : Option Bool
  selectedOption : Option ℕ
  isProcessing : Bool
  scoreRef : ℕ
deriving DecidableEq, Repr

/-- Embedding of `handleOptionClick` (PatternReason part of the MemoryMatch
source file, lines 875-912): re-entrant input is dropped while the
`isProcessing` guard is set or feedback is displayed; otherwise the guard is
set and a correct answer earns `pointsPerCorrect`, plus the speed bonus of 10
when answered within the 8-second threshold (`fast`). -/
def handleOptionClick (pointsPerCorrect : ℕ) (correctIndex : ℕ) (fast : Bool)
    (optionIndex : ℕ) (s : State) : State :=
  if s.isProcessing then s
  else if s.feedback ≠ none then s
  else
    let s1 := { s with isProcessing := true,
                       selectedOption := some optionIndex }
    if optionIndex = correctIndex then
      let points := pointsPerCorrect + (if fast then 10 else 0)
      { s1 with score := s1.score + points, scoreRef := s1.score + points,
                feedback := some true }
    else
      { s1 with feedback := some false }

/-- Embedding of the feedback timer callback (lines 901-911): past the last
question the final `scoreRef` is emitted to `onComplete`; otherwise the next
question is loaded and the guard is released. -/
def feedbackFire (numQuestions : ℕ) (s : State) : State × Option ℕ :=
  if numQuestions ≤ s.currentQuestion + 1 then (s, some s.scoreRef)
  else
    ({ s with currentQuestion := s.currentQuestion + 1, feedback := none,
              selectedOption := none, isProcessing := false }, none)

end PatternReason

namespace ResultPage

end ResultPage

namespace SchulteGrid

/-- Session state of the grid search (SchulteGrid.tsx lines 52-61): the next
number to click, the set of completed numbers, the error count, the elapsed
time in 0.1-second ticks (the source timer increments `elapsed` by 0.1 and
re-rounds to one decimal, which over rationals is exactly a decisecond
counter), the start flag, the flashing error cell, and `finishedRef`. -/
structure State where
  nextNumber : ℕ
  completed : List ℕ
  errors : ℕ
  elapsedDs : ℕ
  started : Bool
  errorCell : Option ℕ
  finished : Bool
deriving DecidableEq, Repr

/-- Embedding of `handleCellClick` (SchulteGrid.tsx lines 83-138): ignored
after `finishedRef` is set; a click on an already-completed number is a
no-op; the correct next number is consumed and, past the last number, the
handler sets `finishedRef`, adds the one synthetic 0.1s tick and schedules
`onComplete(calculateScore(...))` (the emitted value here); a wrong click
increments the error count and flashes the cell. Clicks originate from the
rendered grid, so `index` is always within `numbers`; out-of-range indices
are mapped to no-ops. -/
def handleCellClick (total : ℕ) (targetTime : ℚ) (numbers : List ℕ)
    (index : ℕ) (s : State) : State × Option ℤ :=
  if s.finished then (s, none)
  else
    match numbers.get? index with
    | none => (s, none)
    | some clickedNumber =>
      if clickedNumber ∈ s.completed then (s, none)
      else if clickedNumber = s.nextNumber then
        let newCompleted := s.completed ++ [clickedNumber]
        let newNext := s.nextNumber + 1
        if total < newNext then
          let finalElapsedDs := s.elapsedDs + 1
          ({ s with started := true, completed := newCompleted,
                    nextNumber := newNext, elapsedDs := finalElapsedDs,
                    finished := true },
           some (calculateScore ((finalElapsedDs : ℚ) / 10) s.errors
             targetTime))
        else
          ({ s with started := true, completed := newCompleted,
                    nextNumber := newNext }, none)
      else
        ({ s with started := true, errors := s.errors + 1,
                  errorCell := some index }, none)

end SchulteGrid

namespace MemoryMatch

/-- One card (MemoryMatch.tsx `Card`), with its icon abstracted to a number. -/
structure Card where
  icon : ℕ
  flipped : Bool
  matched : Bool
deriving DecidableEq, Repr

/-- Session state of the memory match: the cards, the indices currently
flipped, error and match counters (the source's `matches` counter is named
`matchCount`, as `matches` is reserved in Lean), the hard-mode countdown
`timeLeft`, and the refs `isChecking`/`gameOver` (plus `gameStarted`). -/
structure GameState where
  cards : List Card
  flippedIndices : List ℕ
  errors : ℕ
  matchCount : ℕ
  timeLeft : ℤ
  gameStarted : Bool
  isChecking : Bool
  gameOver : Bool
deriving DecidableEq, Repr

/-- Resolution scheduled by the second flip (the 400ms/800ms timeouts of
MemoryMatch.tsx lines 131-155). -/
inductive Cmd where
  | resolveMatch (first second : ℕ)
  | resolveMismatch (first second : ℕ)
  | nothing
deriving DecidableEq, Repr

/-- Embedding of `handleCardClick` (MemoryMatch.tsx lines 108-157): ignored
when `gameOver` or `isChecking` is set, when the card is already flipped or
matched, or when two cards are already open; otherwise the card is flipped
and, on the second flip, `isChecking` is set, a mismatch increments the error
count synchronously, and the matching resolution is scheduled. Clicks come
from the rendered grid, so `index` is always within `cards`; out-of-range
indices are mapped to no-ops. -/
def handleCardClick (index : ℕ) (s : GameState) : GameState × Cmd :=
  if s.gameOver then (s, .nothing)
  else if s.isChecking then (s, .nothing)
  else
    match s.cards.get? index with
    | none => (s, .nothing)
    | some card =>
      if card.flipped ∨ card.matched then (s, .nothing)
      else if 2 ≤ s.flippedIndices.length then (s, .nothing)
      else
        let newCards := s.cards.set index { card with flipped := true }
        let newFlipped := s.flippedIndices ++ [index]
        if newFlipped.length = 2 then
          let first := newFlipped.getD 0 0
          let second := newFlipped.getD 1 0
          let firstIcon := (newCards.getD first ⟨0, false, false⟩).icon
          let secondIcon := (newCards.getD second ⟨0, false, false⟩).icon
          if firstIcon = secondIcon then
            ({ s with cards := newCards, flippedIndices := newFlipped,
                      gameStarted := true, isChecking := true },
             .resolveMatch first second)
          else
            ({ s with cards := newCards, flippedIndices := newFlipped,
                      gameStarted := true, errors := s.errors + 1,
                      isChecking := true },
             .resolveMismatch first second)
        else
          ({ s with cards := newCards, flippedIndices := newFlipped,
                    gameStarted := true }, .nothing)

/-- Embedding of the hard-mode time-out completion effect (MemoryMatch.tsx
lines 76-83): when the time limit is configured, the game has started, the
countdown has hit zero and `gameOver` is not yet set, set it and emit
`calculateScore` with `timeUsed = timeLimit`. -/
def timeUpEffect (timeLimit : ℤ) (s : GameState) : GameState × Option ℤ :=
  if 0 < timeLimit ∧ s.gameStarted = true ∧ s.timeLeft = 0 ∧
      s.gameOver = false then
    ({ s with gameOver := true },
     some (calculateScore timeLimit (s.matchCount : ℤ) (s.errors : ℤ)
       timeLimit))
  else (s, none)

/-- Embedding of the all-pairs-matched completion effect (MemoryMatch.tsx
lines 86-98): when every pair is matched and `gameOver` is not yet set, set
it and emit `calculateScore`; `wallTimeUsed` is the untimed-mode value of
`floor((Date.now() - startTime) / 1000)`. -/
def allMatchedEffect (timeLimit : ℤ) (pairs : ℕ) (wallTimeUsed : ℤ)
    (s : GameState) : GameState × Option ℤ :=
  if s.matchCount = pairs ∧ 0 < s.matchCount ∧ s.gameOver = false then
    let timeUsed := if 0 < timeLimit then timeLimit - s.timeLeft
                    else wallTimeUsed
    ({ s with gameOver := true },
     some (calculateScore timeLimit (s.matchCount : ℤ) (s.errors : ℤ) timeUsed))
  else (s, none)

end MemoryMatch

namespace StroopTest

/-- Session state of the Stroop test (StroopTest source lines 323-336):
round counter (`roundRef`), running score, streak, feedback, the current
trial's correct answer (color abstracted to a number), and the refs
`isProcessing`/`scoreRef`. -/
structure State where
  round : ℕ
  score : ℤ
  streak : ℕ
  feedback : Option Bool
  correctAnswer : ℕ
  isProcessing : Bool
  scoreRef : ℤ
deriving DecidableEq, Repr

/-- Embedding of `handleOptionClick` (StroopTest source lines 355-408):
re-entrant input is dropped while `isProcessing` is set; otherwise the guard
is set, a correct answer earns 10 (+5 when answered within 2000ms, `fast`)
plus the streak milestone bonus, a wrong answer clamps `max(0, score - 5)`
and resets the streak, and past the last round `scoreRef` is emitted to
`onComplete` (via the 400ms timeout) instead of advancing the round. -/
def handleOptionClick (totalRounds : ℕ) (fast : Bool) (colorName : ℕ)
    (s : State) : State × Option ℤ :=
  if s.isProcessing then (s, none)
  else
    let s1 := { s with isProcessing := true }
    let isCorrect := colorName = s.correctAnswer
    let s2 :=
      if isCorrect then
        let newStreak := s1.streak + 1
        let points : ℤ := 10 + (if fast then 5 else 0) +
          (if newStreak = 10 then 50 else if newStreak = 5 then 20 else 0)
        { s1 with streak := newStreak, score := s1.score + points,
                  scoreRef := s1.score + points, feedback := some true }
      else
        { s1 with streak := 0, score := max 0 (s1.score - 5),
                  scoreRef := max 0 (s1.score - 5), feedback := some false }
    if totalRounds < s.round + 1 then (s2, some s2.scoreRef)
    else ({ s2 with round := s.round + 1 }, none)

/-- Embedding of `loadTrial` (lines 338-348), fired by the feedback timeout
when the game continues: install the next generated trial (`newAnswer` is
the oracle), clear feedback and release the guard. -/
def loadTrial (newAnswer : ℕ) (s : State) : State :=
  { s with correctAnswer := newAnswer, feedback := none,
           isProcessing := false }

end StroopTest

namespace WordSort

/-- Session state of the categorization game (WordSort.tsx lines 62-76):
position in the word list, running score, streak, correct counter, feedback,
the game-over flag (`gameOverRef` and the `gameOver` state are always set
together) and the `isProcessing` guard. -/
structure State where
  currentIndex : ℕ
  score : ℤ
  streak : ℕ
  correctCount : ℕ
  feedback : Option Bool
  gameOver : Bool
  isProcessing : Bool
deriving DecidableEq, Repr

/-- Embedding of `handleCategoryClick` (WordSort.tsx lines 129-169):
re-entrant input is dropped while `isProcessing` or the game-over flag is
set, or past the last word; otherwise the guard is set and the score/streak
update of `answerStep` is applied (categories abstracted to numbers;
`wordCategory` is the current word's category); the advance itself is the
scheduled timeout. -/
def handleCategoryClick (totalCount wordCategory selectedCategory : ℕ)
    (s : State) : State :=
  if s.isProcessing ∨ s.gameOver then s
  else if totalCount ≤ s.currentIndex then s
  else
    let s1 := { s with isProcessing := true }
    if selectedCategory = wordCategory then
      let newStreak := s1.streak + 1
      let points : ℤ := if 3 ≤ newStreak ∧ newStreak % 3 = 0 then 10 + 15
                        else 10
      { s1 with score := s1.score + points, streak := newStreak,
                correctCount := s1.correctCount + 1, feedback := some true }
    else
      { s1 with score := s1.score - 5, streak := 0, feedback := some false }

end WordSort

namespace ReactionTest

/-- Completion emission of `handleCircleClick` (lines 327-339): a click on
the genuine signal of the last trial schedules `onComplete` with the final
score over the updated reaction-time list; every other click emits nothing.
-/
def handleCircleClickEmits (totalTrials : ℕ) (now : ℕ) (s : State) :
    Option ℤ :=
  match s.phase with
  | .signal =>
    if totalTrials ≤ s.currentTrial + 1 then
      some (finalScore (s.reactionTimes ++ [now - s.signalTime]))
    else none
  | _ => none

end ReactionTest

namespace ArithmeticChallenge

/-- Countdown of the arithmetic challenge (part_000 lines 170-193): the
interval decrements `timeLeft` once per second, clears itself and deactivates
the game at zero, and the completion effect fires on the unique transition of
`timeLeft` to 0, emitting `scoreRef`. `runCountdown scoreRef t` collects the
emissions of a full countdown from `t`. -/
def runCountdown (scoreRef : ℕ) : ℕ → List ℕ
  | 0 => []
  | t + 1 => (if t = 0 then [scoreRef] else []) ++ runCountdown scoreRef t

end ArithmeticChallenge

/-! ## Theorems -/

theorem jsRound_nonneg {q : ℚ} (h : 0 ≤ q) : 0 ≤ jsRound q := by
  have : (0 : ℚ) ≤ q + 1/2 := by linarith
  exact Int.le_floor.mpr (by exact_mod_cast this)

theorem jsRound_intCast (n : ℤ) : jsRound (n : ℚ) = n := by
  unfold jsRound
  rw [Int.floor_eq_iff]
  constructor <;> linarith

theorem saveRecord_eq_trimLog (records : List TrainingRecord)
    (r : TrainingRecord) : saveRecord records r = trimLog (records ++ [r]) := by
  simp only [saveRecord, trimLog]
  by_cases h : 200 < (records ++ [r]).length
  · rw [if_pos h]
  · rw [if_neg h]
    have h0 : (records ++ [r]).length - 200 = 0 := by omega
    rw [h0, List.drop_zero]

theorem trimLog_append (xs ys : List TrainingRecord) :
    trimLog (trimLog xs ++ ys) = trimLog (xs ++ ys) := by
  unfold trimLog
  have hk : xs.length - 200 ≤ xs.length := Nat.sub_le _ _
  rw [← List.drop_append_of_le_length hk, List.length_drop, List.drop_drop]
  have h2 : ∀ a b : ℕ, a = b → (xs ++ ys).drop a = (xs ++ ys).drop b :=
    fun a b h => by rw [h]
  apply h2
  simp only [List.length_append]
  omega

theorem foldl_saveRecord_from_trim (l : List TrainingRecord) :
    ∀ init : List TrainingRecord,
      l.foldl saveRecord (trimLog init) = trimLog (init ++ l) := by
  induction l with
  | nil => intro init; simp [List.foldl]
  | cons r l ih =>
    intro init
    have h1 : saveRecord (trimLog init) r = trimLog (init ++ [r]) := by
      rw [saveRecord_eq_trimLog, trimLog_append]
    simp only [List.foldl, h1]
    have h2 := ih (init ++ [r])
    rw [h2]
    simp

theorem foldl_saveRecord_nil (l : List TrainingRecord) :
    l.foldl saveRecord [] = l.drop (l.length - 200) := by
  have h0 : trimLog [] = [] := by simp [trimLog]
  have := foldl_saveRecord_from_trim l []
  rw [h0] at this
  simpa [trimLog] using this

theorem jsRound_natCast (n : ℕ) : jsRound (n : ℚ) = n := by
  have := jsRound_intCast (n : ℤ)
  push_cast at this ⊢
  exact this

/-- C8: for every raw score and maximum, `normalizeScore` returns
`min(100, round(raw/max * 100))` (agreeing with the spec formula), and in
particular normalizes 450 against 900 to 50 and clamps 1000 against 900 to
100 rather than 111. -/
theorem normalizeScore_correct :
    (∀ rawScore max : ℚ,
      normalizeScore rawScore max = normalizeScoreSpec rawScore max) ∧
    normalizeScore 450 900 = 50 ∧ normalizeScore 1000 900 = 100 := by
  refine ⟨fun _ _ => rfl, ?_, ?_⟩
  · have h : (450 : ℚ) / 900 * 100 = 50 := by norm_num
    unfold normalizeScore
    rw [h]
    have h50 : jsRound ((50 : ℕ) : ℚ) = 50 := jsRound_natCast 50
    norm_num at h50
    rw [h50]
    norm_num
  · unfold normalizeScore jsRound
    have h : ⌊(1000 : ℚ) / 900 * 100 + 1 / 2⌋ = 111 := by
      rw [Int.floor_eq_iff]
      norm_num
    rw [h]
    norm_num

/-- C9: the training-record log is capped at 200 entries: after any sequence
of `saveRecord` calls starting from the empty store, the log equals exactly
the suffix of the 200 most recently appended records in insertion order
(FIFO eviction of the oldest), so appending 205 records leaves exactly the
last 200, the 5 oldest evicted. -/
theorem saveRecord_cap_fifo :
    (∀ l : List TrainingRecord,
      l.foldl saveRecord [] = l.drop (l.length - 200)) ∧
    (∀ l : List TrainingRecord, (l.foldl saveRecord []).length ≤ 200) ∧
    (∀ l : List TrainingRecord, l.length = 205 →
      l.foldl saveRecord [] = l.drop 5 ∧
      (l.foldl saveRecord []).length = 200) := by
  refine ⟨foldl_saveRecord_nil, ?_, ?_⟩
  · intro l
    rw [foldl_saveRecord_nil, List.length_drop]
    omega
  · intro l hl
    rw [foldl_saveRecord_nil, List.length_drop, hl]
    norm_num

/-- Witness for C9: appending 205 concrete records to the empty store leaves
exactly the last 200 of them. -/
theorem saveRecord_cap_fifo_witness :
    (List.replicate 205 (⟨.memory, .easy, 0, 0⟩ : TrainingRecord)).foldl
        saveRecord [] =
      (List.replicate 205 (⟨.memory, .easy, 0, 0⟩ : TrainingRecord)).drop 5 :=
  (saveRecord_cap_fifo.2.2
    (List.replicate 205 (⟨.memory, .easy, 0, 0⟩ : TrainingRecord))
    (by rw [List.length_replicate])).1

/-- C10: the stored best score is monotone non-decreasing under
`saveBestScore`: a call with a lower-or-equal score is a no-op, the stored
entry always holds the maximum of old and new, entries of other games are
untouched, and saving 50 then 40 for the same game leaves 50 stored. -/
theorem saveBestScore_monotone :
    (∀ (best : Scores) (g : GameId) (score b : ℤ),
      best g = some b → score ≤ b → saveBestScore best g score = best) ∧
    (∀ (best : Scores) (g : GameId) (score b : ℤ),
      best g = some b → saveBestScore best g score g = some (max b score)) ∧
    (∀ (best : Scores) (g : GameId) (score : ℤ),
      best g = none → saveBestScore best g score g = some score) ∧
    (∀ (best : Scores) (g g2 : GameId) (score : ℤ),
      g2 ≠ g → saveBestScore best g score g2 = best g2) ∧
    (∀ g : GameId,
      saveBestScore (saveBestScore emptyScores g 50) g 40 g = some 50) := by
  refine ⟨?_, ?_, ?_, ?_, ?_⟩
  · intro best g score b hb hle
    simp only [saveBestScore, hb]
    rw [if_neg (by omega)]
  · intro best g score b hb
    simp only [saveBestScore, hb]
    by_cases h : b < score
    · simp [h, max_eq_right (le_of_lt h)]
    · rw [if_neg h, hb, max_eq_left (by omega)]
  · intro best g score hb
    simp [saveBestScore, hb]
  · intro best g g2 score hne
    cases hb : best g with
    | none => simp [saveBestScore, hb, hne]
    | some b =>
      by_cases h : b < score
      · simp [saveBestScore, hb, h, hne]
      · simp [saveBestScore, hb, h]
  · intro g
    have h1 : saveBestScore emptyScores g 50 g = some 50 := by
      simp [saveBestScore, emptyScores]
    generalize hB : saveBestScore emptyScores g 50 = B at h1 ⊢
    simp only [saveBestScore, h1]
    rw [if_neg (by omega)]
    exact h1

/-- Witness for C10: with the stored best at 50 for the memory game, saving
40 is a no-op and the stored value stays 50. -/
theorem saveBestScore_monotone_witness :
    saveBestScore (saveBestScore emptyScores .memory 50) .memory 40 =
      saveBestScore emptyScores .memory 50 ∧
    saveBestScore emptyScores .memory 50 GameId.memory = some 50 :=
  ⟨saveBestScore_monotone.1 _ .memory 40 50 rfl (by decide),
   saveBestScore_monotone.2.2.1 emptyScores .memory 50 rfl⟩

/-- C4: the grid-search completion score is
`max(0, 500 + tier bonus - 20*errors)` with tier bonus 300 within the target
time, 200 within 1.5x, 100 within 2x, else 0 (the spec formula), the easy
target time is 20s, and any error-free session finishing within the target
time scores exactly 500 + 300 = 800. -/
theorem schulte_score_correct :
    (∀ (elapsed : ℚ) (errors : ℕ) (targetTime : ℚ),
      SchulteGrid.calculateScore elapsed errors targetTime =
        SchulteGrid.scoreSpec elapsed errors targetTime) ∧
    (SchulteGrid.SETTINGS .easy).2 = 20 ∧
    (∀ (elapsed targetTime : ℚ), elapsed ≤ targetTime →
      SchulteGrid.calculateScore elapsed 0 targetTime = 800) := by
  refine ⟨?_, rfl, ?_⟩
  · intro elapsed errors targetTime
    unfold SchulteGrid.calculateScore SchulteGrid.scoreSpec
    rw [mul_comm (1.5 : ℚ) targetTime, mul_comm (2 : ℚ) targetTime,
      mul_comm (20 : ℤ) (errors : ℤ)]
  · intro elapsed targetTime h
    unfold SchulteGrid.calculateScore
    rw [if_pos h]
    norm_num

/-- Witness for C4: an easy session with elapsed 15s (within the 20s target)
and zero errors scores exactly 800. -/
theorem schulte_score_correct_witness :
    SchulteGrid.calculateScore 15 0 20 = 800 :=
  schulte_score_correct.2.2 15 20 (by decide)

/-- C5: each recorded reaction trial contributes `max(0, 800 - rt)` points
when `rt ≥ 150` and 0 points when `rt < 150` (120ms contributes 0, 250ms
contributes 550), and the final score is the rounded mean of the per-trial
contributions over all recorded trials, capped at 800. -/
theorem reaction_scoring_correct :
    ReactionTest.calculateTrialScore 120 = 0 ∧
    ReactionTest.calculateTrialScore 250 = 550 ∧
    (∀ rt : ℕ, ReactionTest.calculateTrialScore rt =
      if 150 ≤ rt then max 0 (800 - (rt : ℤ)) else 0) ∧
    (∀ rts : List ℕ,
      ReactionTest.finalScore rts =
        min 800 (jsRound
          (((rts.map ReactionTest.calculateTrialScore).sum : ℚ) /
            (rts.length : ℚ))) ∧
      ReactionTest.finalScore rts ≤ 800) := by
  refine ⟨by decide, by decide, ?_, ?_⟩
  · intro rt
    unfold ReactionTest.calculateTrialScore
    by_cases h : rt < 150
    · rw [if_pos h, if_neg (by omega)]
    · rw [if_neg h, if_pos (by omega)]
  · intro rts
    exact ⟨rfl, min_le_left _ _⟩

/-- C3: after the trick signal is withdrawn the state reverts to `ready` with
the trick flag cleared; a click arriving after the withdrawal becomes a false
start (`tooEarly`) and records no reaction time; and a click while the trick
signal is still visible (strictly within its 150ms window, the idealized
timer semantics of spec section 5) records a reaction time below 150ms whose
trial score is 0, so the sum of per-trial contributions is unchanged — no
click associated with the withdrawn trick signal adds a positive amount. -/
theorem reaction_trick_not_scorable :
    (∀ s : ReactionTest.State,
      (ReactionTest.trickHide s).phase = .ready ∧
      (ReactionTest.trickHide s).isTrickTrial = false) ∧
    (∀ (now : ℕ) (s : ReactionTest.State),
      (ReactionTest.handleCircleClick now (ReactionTest.trickHide s)).phase =
        .tooEarly ∧
      (ReactionTest.handleCircleClick now
        (ReactionTest.trickHide s)).reactionTimes = s.reactionTimes) ∧
    (∀ (now : ℕ) (s : ReactionTest.State),
      s.phase = .signal → s.isTrickTrial = true →
      now < s.signalTime + 150 →
      (ReactionTest.handleCircleClick now s).reactionTimes =
        s.reactionTimes ++ [now - s.signalTime] ∧
      ReactionTest.calculateTrialScore (now - s.signalTime) = 0 ∧
      ((ReactionTest.handleCircleClick now s).reactionTimes.map
          ReactionTest.calculateTrialScore).sum =
        (s.reactionTimes.map ReactionTest.calculateTrialScore).sum) := by
  refine ⟨?_, ?_, ?_⟩
  · intro s
    exact ⟨rfl, rfl⟩
  · intro now s
    obtain ⟨ph, ct, rts, st, tt⟩ := s
    exact ⟨rfl, rfl⟩
  · intro now s hp _ht hwin
    obtain ⟨ph, ct, rts, st, tt⟩ := s
    simp only at hp hwin
    subst hp
    have hlt : now - st < 150 := by omega
    have hscore : ReactionTest.calculateTrialScore (now - st) = 0 := by
      unfold ReactionTest.calculateTrialScore
      rw [if_pos hlt]
    refine ⟨rfl, hscore, ?_⟩
    simp only [ReactionTest.handleCircleClick, List.map_append,
      List.sum_append, List.map_cons, List.map_nil, List.sum_cons,
      List.sum_nil, hscore]
    omega

/-- Witness for C3: a click 100ms into a concrete trick-signal window records
a 100ms reaction time scoring zero, leaving the per-trial score sum at zero.
-/
theorem reaction_trick_not_scorable_witness :
    (ReactionTest.handleCircleClick 1100
        ⟨.signal, 0, [], 1000, true⟩).reactionTimes = [100] ∧
    ReactionTest.calculateTrialScore 100 = 0 :=
  ⟨(reaction_trick_not_scorable.2.2 1100 ⟨.signal, 0, [], 1000, true⟩
      rfl rfl (by decide)).1,
   (reaction_trick_not_scorable.2.2 1100 ⟨.signal, 0, [], 1000, true⟩
      rfl rfl (by decide)).2.1⟩

/-- Counterexample to C1: in the concrete session `demoClick5`, a retry was
already consumed by the wrong attempt `demoClick2` in round 1
(`retryUsed = true`), round 1 was then solved and round 2 started — and the
wrong attempt in round 2 does NOT end the session: it grants a fresh retry
(`phase = error`, `retryShow`) because `startRound` reset `retryUsed`,
contradicting "once one failed attempt has consumed the retry, every later
wrong attempt — including wrong attempts in later rounds — ends the
session". -/
theorem pathMemory_retry_replenished_counterexample :
    PathMemory.demoClick2.1.retryUsed = true ∧
    PathMemory.demoClick2.2 = .retryShow ∧
    PathMemory.demoClick4.2 = .nextRound 3 ∧
    PathMemory.demoRound2Input.retryUsed = false ∧
    PathMemory.wrongAttempt 5 PathMemory.demoRound2Input ∧
    PathMemory.demoClick5.1.phase = .error ∧
    PathMemory.demoClick5.2 = .retryShow ∧
    ¬ PathMemory.demoClick5.1.phase = .gameover := by
  decide

/-- C1 (amended): the retry allowance is per round, not per session:
`startRound` resets `retryUsed` at every new round, and within a round a
wrong attempt (full-length or detected mid-sequence) while `retryUsed` is set
ends the session with the pre-failure score, while a wrong attempt with an
unused retry grants the retry instead. -/
theorem pathMemory_retry_per_round :
    (∀ (seq : List ℕ) (s : PathMemory.State),
      (PathMemory.startRound seq s).retryUsed = false) ∧
    (∀ (maxLength cell : ℕ) (s : PathMemory.State),
      s.phase = .input → s.retryUsed = true →
      PathMemory.wrongAttempt cell s →
      (PathMemory.handleCellClick maxLength cell s).1.phase = .gameover ∧
      (PathMemory.handleCellClick maxLength cell s).2 =
        .completeGame s.score) ∧
    (∀ (maxLength cell : ℕ) (s : PathMemory.State),
      s.phase = .input → s.retryUsed = false →
      PathMemory.wrongAttempt cell s →
      (PathMemory.handleCellClick maxLength cell s).1.phase = .error ∧
      (PathMemory.handleCellClick maxLength cell s).1.retryUsed = true ∧
      (PathMemory.handleCellClick maxLength cell s).2 = .retryShow) := by
  refine ⟨fun seq s => rfl, ?_, ?_⟩
  · intro maxLength cell s hp hr hw
    obtain ⟨ph, seq, pin, cl, sc, ru⟩ := s
    simp only at hp hr
    subst hp
    subst hr
    unfold PathMemory.wrongAttempt at hw
    simp only at hw
    simp only [PathMemory.handleCellClick]
    rcases hw with ⟨hlen, hne⟩ | ⟨hlen, hne⟩
    · rw [if_neg (fun hcon => hcon rfl), if_pos hlen, if_neg hne,
        if_pos trivial]
      exact ⟨rfl, rfl⟩
    · rw [if_neg (fun hcon => hcon rfl), if_neg hlen, if_pos hne,
        if_pos trivial]
      exact ⟨rfl, rfl⟩
  · intro maxLength cell s hp hr hw
    obtain ⟨ph, seq, pin, cl, sc, ru⟩ := s
    simp only at hp hr
    subst hp
    subst hr
    unfold PathMemory.wrongAttempt at hw
    simp only at hw
    simp only [PathMemory.handleCellClick]
    rcases hw with ⟨hlen, hne⟩ | ⟨hlen, hne⟩
    · rw [if_neg (fun hcon => hcon rfl), if_pos hlen, if_neg hne]
      exact ⟨rfl, rfl, rfl⟩
    · rw [if_neg (fun hcon => hcon rfl), if_neg hlen, if_pos hne]
      exact ⟨rfl, rfl, rfl⟩

/-- Witness for the amended C1: with the round's retry already consumed, a
wrong full-length attempt on the concrete input state ends the session with
the pre-failure score 0. -/
theorem pathMemory_retry_per_round_witness :
    (PathMemory.handleCellClick 6 2
      ⟨.input, [0, 1], [0], 2, 0, true⟩).1.phase = .gameover ∧
    (PathMemory.handleCellClick 6 2
      ⟨.input, [0, 1], [0], 2, 0, true⟩).2 = .completeGame 0 :=
  pathMemory_retry_per_round.2.1 6 2 ⟨.input, [0, 1], [0], 2, 0, true⟩
    rfl rfl (by decide)

/-- C6: invoking an answer/click handler while the session's processing
guard is set leaves the whole session state unchanged, for every game: the
arithmetic, pattern-reasoning, Stroop and WordSort handlers drop input while
`isProcessing` is set, the memory-match handler drops input while
`isChecking` (or `gameOver`) is set and raises `isChecking` on the second
flip so a third rapid click is dropped, and the phase-guarded games ignore
input during their feedback/advance-pending windows (spatial recall outside
`input`, the reaction test in `result`/`tooEarly`, digit span outside
`input`, grid search after `finishedRef`); consequently two rapid clicks,
the second arriving before the scheduled advance fires and releases the
guard, always produce exactly the state of the first click alone — one
score update, one streak update, and one pending advance. -/
theorem processing_guard_blocks_reentry :
    (∀ (st : ArithmeticChallenge.Settings) (v : ℤ)
        (s : ArithmeticChallenge.State), s.isProcessing = true →
      ArithmeticChallenge.handleOptionClick st v s = s) ∧
    (∀ (p ci : ℕ) (f : Bool) (oi : ℕ) (s : PatternReason.State),
      s.isProcessing = true →
      PatternReason.handleOptionClick p ci f oi s = s) ∧
    (∀ (st : ArithmeticChallenge.Settings) (v1 v2 : ℤ)
        (s : ArithmeticChallenge.State),
      ArithmeticChallenge.handleOptionClick st v2
          (ArithmeticChallenge.handleOptionClick st v1 s) =
        ArithmeticChallenge.handleOptionClick st v1 s) ∧
    (∀ (p ci : ℕ) (f1 f2 : Bool) (oi1 oi2 : ℕ) (s : PatternReason.State),
      PatternReason.handleOptionClick p ci f2 oi2
          (PatternReason.handleOptionClick p ci f1 oi1 s) =
        PatternReason.handleOptionClick p ci f1 oi1 s) ∧
    (∀ (tr : ℕ) (fast : Bool) (color : ℕ) (s : StroopTest.State),
      s.isProcessing = true →
      StroopTest.handleOptionClick tr fast color s = (s, none)) ∧
    (∀ (tr : ℕ) (f1 f2 : Bool) (c1 c2 : ℕ) (s : StroopTest.State),
      StroopTest.handleOptionClick tr f2 c2
          (StroopTest.handleOptionClick tr f1 c1 s).1 =
        ((StroopTest.handleOptionClick tr f1 c1 s).1, none)) ∧
    (∀ (tc wc sel : ℕ) (s : WordSort.State), s.isProcessing = true →
      WordSort.handleCategoryClick tc wc sel s = s) ∧
    (∀ (tc wc sel1 sel2 : ℕ) (s : WordSort.State),
      WordSort.handleCategoryClick tc wc sel2
          (WordSort.handleCategoryClick tc wc sel1 s) =
        WordSort.handleCategoryClick tc wc sel1 s) ∧
    (∀ (idx : ℕ) (s : MemoryMatch.GameState), s.isChecking = true →
      MemoryMatch.handleCardClick idx s = (s, .nothing)) ∧
    (∀ (idx : ℕ) (s : MemoryMatch.GameState), s.gameOver = true →
      MemoryMatch.handleCardClick idx s = (s, .nothing)) ∧
    (∀ (idx : ℕ) (s : MemoryMatch.GameState) (card : MemoryMatch.Card),
      s.isChecking = false → s.gameOver = false →
      s.cards.get? idx = some card → card.flipped = false →
      card.matched = false → s.flippedIndices.length = 1 →
      (MemoryMatch.handleCardClick idx s).1.isChecking = true) ∧
    (∀ (ml cell : ℕ) (s : PathMemory.State), s.phase ≠ .input →
      PathMemory.handleCellClick ml cell s = (s, .nothing)) ∧
    (∀ (now : ℕ) (s : ReactionTest.State), s.phase = .result →
      ReactionTest.handleCircleClick now s = s) ∧
    (∀ (now : ℕ) (s : ReactionTest.State), s.phase = .tooEarly →
      ReactionTest.handleCircleClick now s = s) ∧
    (∀ (n : ℕ) (d : Difficulty) (ml : ℕ) (ns : List ℕ)
        (s : DigitSpan.State), s.phase ≠ .input →
      DigitSpan.handleNumberPress n s = s ∧
      DigitSpan.handleConfirm d ml ns s = (s, none)) ∧
    (∀ (total : ℕ) (tt : ℚ) (nums : List ℕ) (idx : ℕ)
        (s : SchulteGrid.State), s.finished = true →
      SchulteGrid.handleCellClick total tt nums idx s = (s, none)) := by
  have harith : ∀ (st : ArithmeticChallenge.Settings) (v : ℤ)
      (s : ArithmeticChallenge.State), s.isProcessing = true →
      ArithmeticChallenge.handleOptionClick st v s = s := by
    intro st v s h
    unfold ArithmeticChallenge.handleOptionClick
    rw [if_pos h]
  have hpat : ∀ (p ci : ℕ) (f : Bool) (oi : ℕ) (s : PatternReason.State),
      s.isProcessing = true →
      PatternReason.handleOptionClick p ci f oi s = s := by
    intro p ci f oi s h
    unfold PatternReason.handleOptionClick
    rw [if_pos h]
  have hstroop : ∀ (tr : ℕ) (fast : Bool) (color : ℕ)
      (s : StroopTest.State), s.isProcessing = true →
      StroopTest.handleOptionClick tr fast color s = (s, none) := by
    intro tr fast color s h
    unfold StroopTest.handleOptionClick
    rw [if_pos h]
  have hws : ∀ (tc wc sel : ℕ) (s : WordSort.State),
      s.isProcessing = true →
      WordSort.handleCategoryClick tc wc sel s = s := by
    intro tc wc sel s h
    unfold WordSort.handleCategoryClick
    rw [if_pos (Or.inl h)]
  refine ⟨harith, hpat, ?_, ?_, hstroop, ?_, hws, ?_, ?_, ?_, ?_, ?_, ?_,
    ?_, ?_, ?_⟩
  · intro st v1 v2 s
    by_cases h1 : s.isProcessing
    · rw [harith st v1 s h1, harith st v2 s h1]
    · by_cases h2 : s.gameActive
      · have hset : (ArithmeticChallenge.handleOptionClick st v1
            s).isProcessing = true := by
          unfold ArithmeticChallenge.handleOptionClick
          rw [if_neg h1, if_neg (by simp [h2])]
          by_cases h3 : v1 = s.answer <;> simp [h3]
        exact harith st v2 _ hset
      · have hstop : ArithmeticChallenge.handleOptionClick st v1 s = s := by
          unfold ArithmeticChallenge.handleOptionClick
          rw [if_neg h1, if_pos (by simp [h2])]
        rw [hstop]
        rw [hstop.symm] at hstop
        unfold ArithmeticChallenge.handleOptionClick
        rw [if_neg h1, if_pos (by simp [h2])]
  · intro p ci f1 f2 oi1 oi2 s
    by_cases h1 : s.isProcessing
    · rw [hpat p ci f1 oi1 s h1, hpat p ci f2 oi2 s h1]
    · by_cases h2 : s.feedback = none
      · have hset : (PatternReason.handleOptionClick p ci f1 oi1
            s).isProcessing = true := by
          unfold PatternReason.handleOptionClick
          rw [if_neg h1, if_neg (by simp [h2])]
          by_cases h3 : oi1 = ci <;> simp [h3]
        exact hpat p ci f2 oi2 _ hset
      · have hstop : PatternReason.handleOptionClick p ci f1 oi1 s = s := by
          unfold PatternReason.handleOptionClick
          rw [if_neg h1, if_pos (by simp [h2])]
        rw [hstop]
        unfold PatternReason.handleOptionClick
        rw [if_neg h1, if_pos (by simp [h2])]
  · intro tr f1 f2 c1 c2 s
    by_cases h1 : s.isProcessing
    · have e1 := hstroop tr f1 c1 s h1
      rw [e1]
      exact hstroop tr f2 c2 s h1
    · have hset : (StroopTest.handleOptionClick tr f1 c1
          s).1.isProcessing = true := by
        simp only [StroopTest.handleOptionClick]
        rw [if_neg h1]
        split_ifs <;> rfl
      exact hstroop tr f2 c2 _ hset
  · intro tc wc sel1 sel2 s
    by_cases h1 : s.isProcessing ∨ s.gameOver
    · have e1 : WordSort.handleCategoryClick tc wc sel1 s = s := by
        unfold WordSort.handleCategoryClick
        rw [if_pos h1]
      rw [e1]
      unfold WordSort.handleCategoryClick
      rw [if_pos h1]
    · by_cases h2 : tc ≤ s.currentIndex
      · have e1 : WordSort.handleCategoryClick tc wc sel1 s = s := by
          unfold WordSort.handleCategoryClick
          rw [if_neg h1, if_pos h2]
        rw [e1]
        unfold WordSort.handleCategoryClick
        rw [if_neg h1, if_pos h2]
      · have hset : (WordSort.handleCategoryClick tc wc sel1
            s).isProcessing = true := by
          simp only [WordSort.handleCategoryClick]
          rw [if_neg h1, if_neg h2]
          split_ifs <;> rfl
        exact hws tc wc sel2 _ hset
  · intro idx s h
    unfold MemoryMatch.handleCardClick
    by_cases hg : s.gameOver
    · rw [if_pos hg]
    · rw [if_neg hg, if_pos h]
  · intro idx s h
    unfold MemoryMatch.handleCardClick
    rw [if_pos h]
  · intro idx s card hchk hgo hcard hf hm hlen
    simp only [MemoryMatch.handleCardClick]
    rw [if_neg (by simp [hgo]), if_neg (by simp [hchk])]
    simp only [hcard]
    rw [if_neg (by simp [hf, hm]), if_neg (by rw [hlen]; decide),
      if_pos (by simp [hlen])]
    split_ifs <;> rfl
  · intro ml cell s hp
    unfold PathMemory.handleCellClick
    rw [if_pos hp]
  · intro now s hp
    obtain ⟨ph, ct, rts, st, tt2⟩ := s
    simp only at hp
    subst hp
    rfl
  · intro now s hp
    obtain ⟨ph, ct, rts, st, tt2⟩ := s
    simp only at hp
    subst hp
    rfl
  · intro n d ml ns s hp
    constructor
    · unfold DigitSpan.handleNumberPress
      rw [if_pos (Or.inl hp)]
    · unfold DigitSpan.handleConfirm
      rw [if_pos (Or.inl hp)]
  · intro total tt nums idx s hfin
    unfold SchulteGrid.handleCellClick
    rw [if_pos hfin]

/-- Witness for C6: concrete states with the guard set absorb a click
unchanged in the arithmetic, pattern-reasoning, Stroop, WordSort and
memory-match games, and a concrete in-feedback spatial-recall state ignores
a click. -/
theorem processing_guard_blocks_reentry_witness :
    ArithmeticChallenge.handleOptionClick ⟨10, 2, 10⟩ 7
        ⟨0, 0, 0, 0, none, none, 7, 0, true, true, 0⟩ =
      ⟨0, 0, 0, 0, none, none, 7, 0, true, true, 0⟩ ∧
    PatternReason.handleOptionClick 50 1 true 1 ⟨0, 0, none, none, true, 0⟩ =
      ⟨0, 0, none, none, true, 0⟩ ∧
    StroopTest.handleOptionClick 20 true 0 ⟨1, 0, 0, none, 0, true, 0⟩ =
      (⟨1, 0, 0, none, 0, true, 0⟩, none) ∧
    WordSort.handleCategoryClick 12 0 1 ⟨0, 0, 0, 0, none, false, true⟩ =
      ⟨0, 0, 0, 0, none, false, true⟩ ∧
    MemoryMatch.handleCardClick 0
        ⟨[⟨5, true, false⟩, ⟨5, false, false⟩], [0], 0, 0, 0, true, true,
          false⟩ =
      (⟨[⟨5, true, false⟩, ⟨5, false, false⟩], [0], 0, 0, 0, true, true,
          false⟩, .nothing) ∧
    PathMemory.handleCellClick 6 1 ⟨.error, [0, 1], [0, 2], 2, 0, true⟩ =
      (⟨.error, [0, 1], [0, 2], 2, 0, true⟩, .nothing) :=
  ⟨processing_guard_blocks_reentry.1 ⟨10, 2, 10⟩ 7
      ⟨0, 0, 0, 0, none, none, 7, 0, true, true, 0⟩ rfl,
   processing_guard_blocks_reentry.2.1 50 1 true 1
      ⟨0, 0, none, none, true, 0⟩ rfl,
   processing_guard_blocks_reentry.2.2.2.2.1 20 true 0
      ⟨1, 0, 0, none, 0, true, 0⟩ rfl,
   processing_guard_blocks_reentry.2.2.2.2.2.2.1 12 0 1
      ⟨0, 0, 0, 0, none, false, true⟩ rfl,
   processing_guard_blocks_reentry.2.2.2.2.2.2.2.2.1 0
      ⟨[⟨5, true, false⟩, ⟨5, false, false⟩], [0], 0, 0, 0, true, true,
        false⟩ rfl,
   processing_guard_blocks_reentry.2.2.2.2.2.2.2.2.2.2.2.1 6 1
      ⟨.error, [0, 1], [0, 2], 2, 0, true⟩ (by decide)⟩

theorem stroop_answerStep_nonneg (c f : Bool) (score : ℤ) (streak : ℕ)
    (h : 0 ≤ score) : 0 ≤ (StroopTest.answerStep c f score streak).1 := by
  unfold StroopTest.answerStep
  by_cases hc : c
  · rw [if_pos hc]
    simp only
    split_ifs <;> omega
  · rw [if_neg hc]
    exact le_max_left _ _

theorem stroop_foldl_nonneg (answers : List (Bool × Bool)) :
    ∀ (score : ℤ) (streak : ℕ), 0 ≤ score →
      0 ≤ (answers.foldl
        (fun acc a => StroopTest.answerStep a.1 a.2 acc.1 acc.2)
        (score, streak)).1 := by
  induction answers with
  | nil => intro score streak h; exact h
  | cons a l ih =>
    intro score streak h
    simp only [List.foldl]
    have h1 := stroop_answerStep_nonneg a.1 a.2 score streak h
    have h2 := ih (StroopTest.answerStep a.1 a.2 score streak).1
      (StroopTest.answerStep a.1 a.2 score streak).2 h1
    simpa using h2

theorem runCompletion_done_emits_nothing (score : ℤ) :
    ∀ n : ℕ, (WordSort.runCompletion true true score n).2 = [] := by
  intro n
  induction n with
  | zero => rfl
  | succ n ih =>
    simp only [WordSort.runCompletion, WordSort.completionEffect]
    rw [if_neg (by simp)]
    simpa using ih

theorem calculateTrialScore_nonneg (rt : ℕ) :
    0 ≤ ReactionTest.calculateTrialScore rt := by
  unfold ReactionTest.calculateTrialScore
  by_cases h : rt < 150
  · rw [if_pos h]
  · rw [if_neg h]
    exact le_max_left _ _

/-- C2: every game's session reports a non-negative integer score to
`onComplete`, exactly once per completed session. Non-negativity: the
memory-match and grid-search formulas are clamped at zero; the Stroop
running score is clamped at every step so its final `scoreRef` is
non-negative; the categorization (WordSort) running score can be transiently
negative mid-session (one wrong answer leaves it at -5) but the completion
effect emits the clamped `max(0, score)`; the reaction final score is
non-negative (and capped at 800); the digit-span, spatial-recall, arithmetic
and pattern-reasoning scores are naturals. Exactly-once: WordSort's
`completedRef`-guarded effect emits once no matter how often it re-runs; the
digit-span confirm emits only while setting `gameOverRef`, after which every
confirm is a no-op; both memory-match completion paths (hard-mode time-out
and all-pairs-matched) emit only while setting the shared `gameOver` guard
and are no-ops once it is set, so their race cannot double-fire; the grid
search emits only while setting `finishedRef` and ignores clicks after it;
the Stroop game-over click leaves `isProcessing` permanently set (no
`loadTrial` is scheduled) so no further click does anything; the reaction
test emits only on a click that enters the `result` phase, where clicks are
ignored; the arithmetic countdown reaches 0 exactly once, so the
`timeLeft = 0` completion effect emits `scoreRef` exactly once; a
spatial-recall click that emits a completion leaves the phase outside
`input` so every further click is ignored; and the pattern-reasoning
emission leaves the state (with its set guard) unchanged. -/
theorem onComplete_score_nonneg_once :
    (∀ tl m e tu : ℤ, 0 ≤ MemoryMatch.calculateScore tl m e tu) ∧
    (∀ (elapsed : ℚ) (errors : ℕ) (targetTime : ℚ),
      0 ≤ SchulteGrid.calculateScore elapsed errors targetTime) ∧
    (∀ answers : List (Bool × Bool), 0 ≤ (StroopTest.runSession answers).1) ∧
    ((WordSort.runSession [false]).1 = -5) ∧
    (∀ (go c : Bool) (score v : ℤ),
      (WordSort.completionEffect go c score).2 = some v → 0 ≤ v) ∧
    (∀ (score : ℤ) (n : ℕ),
      (WordSort.runCompletion false true score (n + 1)).2 =
        [max 0 score]) ∧
    (∀ rts : List ℕ, 0 ≤ ReactionTest.finalScore rts) ∧
    (∀ (d : Difficulty) (ml : ℕ) (ns : List ℕ) (s : DigitSpan.State)
        (v : ℕ), (DigitSpan.handleConfirm d ml ns s).2 = some v →
      0 ≤ (v : ℤ) ∧ (DigitSpan.handleConfirm d ml ns s).1.gameOver = true) ∧
    (∀ (d : Difficulty) (ml : ℕ) (ns : List ℕ) (s : DigitSpan.State),
      s.gameOver = true → DigitSpan.handleConfirm d ml ns s = (s, none)) ∧
    (∀ (ml cell : ℕ) (s : PathMemory.State) (n : ℕ),
      (PathMemory.handleCellClick ml cell s).2 = .completeGame n →
      0 ≤ (n : ℤ)) ∧
    (∀ (nq : ℕ) (s : PatternReason.State) (v : ℕ),
      (PatternReason.feedbackFire nq s).2 = some v → 0 ≤ (v : ℤ)) ∧
    (∀ (tl : ℤ) (s : MemoryMatch.GameState) (v : ℤ),
      (MemoryMatch.timeUpEffect tl s).2 = some v →
      (MemoryMatch.timeUpEffect tl s).1.gameOver = true ∧ 0 ≤ v) ∧
    (∀ (tl : ℤ) (pairs : ℕ) (w : ℤ) (s : MemoryMatch.GameState) (v : ℤ),
      (MemoryMatch.allMatchedEffect tl pairs w s).2 = some v →
      (MemoryMatch.allMatchedEffect tl pairs w s).1.gameOver = true ∧
      0 ≤ v) ∧
    (∀ (tl : ℤ) (s : MemoryMatch.GameState), s.gameOver = true →
      MemoryMatch.timeUpEffect tl s = (s, none)) ∧
    (∀ (tl : ℤ) (pairs : ℕ) (w : ℤ) (s : MemoryMatch.GameState),
      s.gameOver = true →
      MemoryMatch.allMatchedEffect tl pairs w s = (s, none)) ∧
    (∀ (total : ℕ) (tt : ℚ) (nums : List ℕ) (idx : ℕ)
        (s : SchulteGrid.State) (v : ℤ),
      (SchulteGrid.handleCellClick total tt nums idx s).2 = some v →
      (SchulteGrid.handleCellClick total tt nums idx s).1.finished = true ∧
      0 ≤ v) ∧
    (∀ (total : ℕ) (tt : ℚ) (nums : List ℕ) (idx : ℕ)
        (s : SchulteGrid.State), s.finished = true →
      SchulteGrid.handleCellClick total tt nums idx s = (s, none)) ∧
    (∀ (tr : ℕ) (fast : Bool) (color : ℕ) (s : StroopTest.State) (v : ℤ),
      (StroopTest.handleOptionClick tr fast color s).2 = some v →
      (StroopTest.handleOptionClick tr fast color s).1.isProcessing =
        true) ∧
    (∀ (tr : ℕ) (fast : Bool) (color : ℕ) (s : StroopTest.State),
      s.isProcessing = true →
      StroopTest.handleOptionClick tr fast color s = (s, none)) ∧
    (∀ (tt now : ℕ) (s : ReactionTest.State) (v : ℤ),
      ReactionTest.handleCircleClickEmits tt now s = some v →
      (ReactionTest.handleCircleClick now s).phase = .result) ∧
    (∀ (tt now : ℕ) (s : ReactionTest.State), s.phase = .result →
      ReactionTest.handleCircleClick now s = s ∧
      ReactionTest.handleCircleClickEmits tt now s = none) ∧
    (∀ (scoreRef t : ℕ),
      ArithmeticChallenge.runCountdown scoreRef (t + 1) = [scoreRef]) ∧
    (∀ (ml cell : ℕ) (s : PathMemory.State) (n : ℕ),
      (PathMemory.handleCellClick ml cell s).2 = .completeGame n →
      (PathMemory.handleCellClick ml cell s).1.phase ≠ .input) ∧
    (∀ (ml cell : ℕ) (s : PathMemory.State), s.phase ≠ .input →
      PathMemory.handleCellClick ml cell s = (s, .nothing)) ∧
    (∀ (nq : ℕ) (s : PatternReason.State) (v : ℕ),
      (PatternReason.feedbackFire nq s).2 = some v →
      (PatternReason.feedbackFire nq s).1 = s) := by
  refine ⟨?_, ?_, ?_, by decide, ?_, ?_, ?_, ?_, ?_, ?_, ?_, ?_, ?_, ?_,
    ?_, ?_, ?_, ?_, ?_, ?_, ?_, ?_, ?_, ?_, ?_⟩
  · intro tl m e tu
    exact le_max_left _ _
  · intro elapsed errors targetTime
    exact le_max_left _ _
  · intro answers
    exact stroop_foldl_nonneg answers 0 0 le_rfl
  · intro go c score v h
    unfold WordSort.completionEffect at h
    by_cases hc : go = true ∧ c = false
    · rw [if_pos hc] at h
      simp only [Option.some.injEq] at h
      rw [← h]
      exact le_max_left _ _
    · rw [if_neg hc] at h
      simp at h
  · intro score n
    simp only [WordSort.runCompletion, WordSort.completionEffect]
    rw [if_pos (by simp)]
    rw [runCompletion_done_emits_nothing score n]
    rfl
  · intro rts
    unfold ReactionTest.finalScore
    have hsum : 0 ≤ (rts.map ReactionTest.calculateTrialScore).sum := by
      apply List.sum_nonneg
      intro x hx
      obtain ⟨rt, _, hrt⟩ := List.mem_map.mp hx
      rw [← hrt]
      exact calculateTrialScore_nonneg rt
    have hq : (0 : ℚ) ≤
        (((rts.map ReactionTest.calculateTrialScore).sum : ℚ)) /
          (rts.length : ℚ) := by
      apply div_nonneg
      · exact_mod_cast hsum
      · positivity
    exact le_min (by norm_num) (jsRound_nonneg hq)
  · intro d ml ns s v h
    refine ⟨Int.natCast_nonneg v, ?_⟩
    simp only [DigitSpan.handleConfirm] at h ⊢
    by_cases hg : s.phase ≠ .input ∨ s.gameOver = true
    · rw [if_pos hg] at h
      simp at h
    · rw [if_neg hg] at h ⊢
      by_cases hcorrect : s.playerInput = s.currentSequence.reverse
      · rw [if_pos hcorrect] at h ⊢
        by_cases hm : ml < s.sequenceLength + 1
        · rw [if_pos hm]
        · rw [if_neg hm] at h
          simp at h
      · rw [if_neg hcorrect] at h ⊢
        by_cases hf : (if d = .easy then 3 else 2) ≤ s.failCount + 1
        · rw [if_pos hf]
        · rw [if_neg hf] at h
          simp at h
  · intro d ml ns s hgo
    simp only [DigitSpan.handleConfirm]
    rw [if_pos (Or.inr hgo)]
  · intro ml cell s n _h
    exact Int.natCast_nonneg n
  · intro nq s v _h
    exact Int.natCast_nonneg v
  · intro tl s v h
    unfold MemoryMatch.timeUpEffect at h ⊢
    by_cases hc : 0 < tl ∧ s.gameStarted = true ∧ s.timeLeft = 0 ∧
        s.gameOver = false
    · rw [if_pos hc] at h ⊢
      simp only [Option.some.injEq] at h
      exact ⟨rfl, by rw [← h]; exact le_max_left _ _⟩
    · rw [if_neg hc] at h
      simp at h
  · intro tl pairs w s v h
    unfold MemoryMatch.allMatchedEffect at h ⊢
    by_cases hc : s.matchCount = pairs ∧ 0 < s.matchCount ∧
        s.gameOver = false
    · rw [if_pos hc] at h ⊢
      simp only [Option.some.injEq] at h
      exact ⟨rfl, by rw [← h]; exact le_max_left _ _⟩
    · rw [if_neg hc] at h
      simp at h
  · intro tl s hgo
    unfold MemoryMatch.timeUpEffect
    rw [if_neg (by simp [hgo])]
  · intro tl pairs w s hgo
    unfold MemoryMatch.allMatchedEffect
    rw [if_neg (by simp [hgo])]
  · intro total tt nums idx s v h
    simp only [SchulteGrid.handleCellClick] at h ⊢
    by_cases hf : s.finished = true
    · rw [if_pos hf] at h
      simp at h
    · rw [if_neg hf] at h ⊢
      cases hx : nums.get? idx with
      | none =>
        simp only [hx] at h
        simp at h
      | some clicked =>
        simp only [hx] at h ⊢
        by_cases hmem : clicked ∈ s.completed
        · rw [if_pos hmem] at h
          simp at h
        · rw [if_neg hmem] at h ⊢
          by_cases hnext : clicked = s.nextNumber
          · rw [if_pos hnext] at h ⊢
            by_cases htot : total < s.nextNumber + 1
            · rw [if_pos htot] at h ⊢
              simp only [Option.some.injEq] at h
              exact ⟨rfl, by rw [← h]; exact le_max_left _ _⟩
            · rw [if_neg htot] at h
              simp at h
          · rw [if_neg hnext] at h
            simp at h
  · intro total tt nums idx s hfin
    unfold SchulteGrid.handleCellClick
    rw [if_pos hfin]
  · intro tr fast color s v h
    simp only [StroopTest.handleOptionClick] at h ⊢
    by_cases hp : s.isProcessing = true
    · rw [if_pos hp] at h
      simp at h
    · rw [if_neg hp] at h ⊢
      by_cases hr : tr < s.round + 1
      · rw [if_pos hr] at h ⊢
        split_ifs <;> rfl
      · rw [if_neg hr] at h
        simp at h
  · intro tr fast color s hp
    unfold StroopTest.handleOptionClick
    rw [if_pos hp]
  · intro tt now s v h
    obtain ⟨ph, ct, rts, st, tk⟩ := s
    cases ph
    all_goals first
      | rfl
      | simp [ReactionTest.handleCircleClickEmits] at h
  · intro tt now s hp
    obtain ⟨ph, ct, rts, st, tk⟩ := s
    simp only at hp
    subst hp
    exact ⟨rfl, rfl⟩
  · intro scoreRef t
    induction t with
    | zero => rfl
    | succ t ih =>
      simp only [ArithmeticChallenge.runCountdown] at ih ⊢
      rw [if_neg (by omega)]
      simpa using ih
  · intro ml cell s n h
    by_cases hp : s.phase = .input
    · obtain ⟨ph, seq, pin, cl, sc, ru⟩ := s
      simp only at hp
      subst hp
      simp only [PathMemory.handleCellClick] at h ⊢
      rw [if_neg (fun hcon => hcon rfl)] at h ⊢
      by_cases hlen : (pin ++ [cell]).length = seq.length
      · rw [if_pos hlen] at h ⊢
        by_cases heq : pin ++ [cell] = seq
        · rw [if_pos heq] at h ⊢
          by_cases hm : ml < cl + 1
          · rw [if_pos hm] at h ⊢
            simp
          · rw [if_neg hm] at h
            simp at h
        · rw [if_neg heq] at h ⊢
          by_cases hr : ru = true
          · rw [if_pos hr] at h ⊢
            simp
          · rw [if_neg hr] at h
            simp at h
      · rw [if_neg hlen] at h ⊢
        by_cases hcor : (pin ++ [cell]).get? ((pin ++ [cell]).length - 1) =
            seq.get? ((pin ++ [cell]).length - 1)
        · rw [if_neg (not_not_intro hcor)] at h
          simp at h
        · rw [if_pos hcor] at h ⊢
          by_cases hr : ru = true
          · rw [if_pos hr] at h ⊢
            simp
          · rw [if_neg hr] at h
            simp at h
    · simp only [PathMemory.handleCellClick] at h
      rw [if_pos hp] at h
      simp at h
  · intro ml cell s hp
    unfold PathMemory.handleCellClick
    rw [if_pos hp]
  · intro nq s v h
    unfold PatternReason.feedbackFire at h ⊢
    by_cases hc : nq ≤ s.currentQuestion + 1
    · rw [if_pos hc]
    · rw [if_neg hc] at h
      simp at h

/-- Witness for C2: on a concrete digit-span input state, confirming the
correct reversed sequence at the maximum length emits the non-negative final
score 150 while setting the game-over flag, after which a further confirm is
a no-op; and a concrete WordSort completion run emits exactly the clamped
score once. -/
theorem onComplete_score_nonneg_once_witness :
    (DigitSpan.handleConfirm .normal 2 []
      ⟨.input, [1, 2], [2, 1], 2, 100, 0, 0, true, false⟩).1.gameOver =
        true ∧
    DigitSpan.handleConfirm .normal 2 []
      (DigitSpan.handleConfirm .normal 2 []
        ⟨.input, [1, 2], [2, 1], 2, 100, 0, 0, true, false⟩).1 =
      ((DigitSpan.handleConfirm .normal 2 []
        ⟨.input, [1, 2], [2, 1], 2, 100, 0, 0, true, false⟩).1, none) ∧
    (WordSort.runCompletion false true (-5) 3).2 = [max 0 (-5)] :=
  ⟨(onComplete_score_nonneg_once.2.2.2.2.2.2.2.1 .normal 2 []
      ⟨.input, [1, 2], [2, 1], 2, 100, 0, 0, true, false⟩ 150 (by decide)).2,
   onComplete_score_nonneg_once.2.2.2.2.2.2.2.2.1 .normal 2 []
      (DigitSpan.handleConfirm .normal 2 []
        ⟨.input, [1, 2], [2, 1], 2, 100, 0, 0, true, false⟩).1
      (by decide),
   onComplete_score_nonneg_once.2.2.2.2.2.1 (-5) 2⟩
